import Mathlib

/-! # HexGrid: hexagonal grid generation, vertex rounding and the zigzag mesh walk

A shallow embedding of `src/HexGrid.cpp` (`HexGrid::generate`, `HexGrid::round`,
`HexMesh::generate`).

Modelling conventions.

* Two embeddings of the arithmetic are given. `HexGrid.generate` and `HexGrid.round` read
  every `float` operation as the exact operation on rationals (`ℚ`) and every `int`
  operation as the operation on `Int`: these are the definitions behind the statements
  about exact arithmetic; the constant `sin60` is the decimal literal `0.8660254` written
  in the source. `HexGrid.generate_machine` and `HexGrid.round_machine` are the same two
  methods with every `float` operation rounded to IEEE binary32 (`f32`: round to nearest,
  ties to even; each operation rounded on its own, no wider intermediate precision, no
  fused multiply-add; overflow to infinity and NaN are not modelled) and every `int`
  operation reduced to 32 bits (`int32`: two's-complement wrap-around; signed overflow is
  undefined behaviour in C++, the wrap-around is what the usual compilers produce).
* The hexagon count `int(float(n) / sin60)` is an integer that the source decides by a
  binary32 division; `hexCount` computes it with that rounding in both embeddings, because
  the rounding changes the integer (at `n = 3691` it is `4262`, the exact quotient
  truncates to `4261`).
* `/` and `%` on `int` are the truncating `Int.tdiv` and `Int.tmod`; `int(x)` on a float
  truncates toward zero (`truncToInt`).
* `std::vector<float>` is `List ℚ`, `push_back` appends at the end. An index outside the
  vector is undefined behaviour in the source; the mesh walk returns `none` there.
* `size_t` is a 64 bit unsigned integer, `minor_size - 1` wraps.
* A `for (int i = 0; i < m; ++i)` loop whose body changes neither `i` nor `m` is a left fold
  over `List.range m.toNat` (no iteration when `m ≤ 0`).
-/

/-- The pair of floats used for `HexGrid::origin` and `HexGrid::offset`. -/
structure MajorMinor where
  major : ℚ
  minor : ℚ
deriving DecidableEq, Repr

/-- The class `HexGrid`: origin, centre-to-centre offsets and the two axis vectors. -/
structure HexGrid where
  origin : MajorMinor
  offset : MajorMinor
  major_axis : List ℚ
  minor_axis : List ℚ
deriving DecidableEq, Repr

/-- The constant `sin60 = 0.8660254` of `HexGrid::generate`. -/
def sin60 : ℚ := 8660254 / 10000000

/-- The conversion `int(x)` of a float: truncation toward zero. -/
def truncToInt (x : ℚ) : Int := Int.tdiv x.num (x.den : Int)

/-- The integer nearest to `q`, halfway cases to the even neighbour. -/
def roundHalfEven (q : ℚ) : Int :=
  if q - ⌊q⌋ < 1 / 2 then ⌊q⌋
  else if 1 / 2 < q - ⌊q⌋ then ⌊q⌋ + 1
  else if ⌊q⌋ % 2 = 0 then ⌊q⌋ else ⌊q⌋ + 1

/-- Rounding of a real value to IEEE binary32 (round to nearest, ties to even): with `e` the
binary exponent of `x` (not below `-126`), the value is rounded to a multiple of
`2 ^ (e - 23)`. Overflow to infinity is not modelled. -/
def f32 (x : ℚ) : ℚ :=
  if x = 0 then 0
  else
    (roundHalfEven (x / 2 ^ (max (Int.log 2 |x|) (-126) - 23)) : ℚ)
      * 2 ^ (max (Int.log 2 |x|) (-126) - 23)

/-- The value stored in `const float sin60 = 0.8660254;`: the literal rounded to binary32. -/
def sin60_f32 : ℚ := f32 sin60

/-- Two's-complement reduction of an integer to the 32 bit range of `int`. -/
def int32 (x : Int) : Int := (x + 2 ^ 31) % 2 ^ 32 - 2 ^ 31

/-- The test `(i + 1) % 3 == 0` of the minor-axis loop: `i` is a "phantom" graduation. -/
def isPhantom (i : Nat) : Bool := Int.tmod ((i : Int) + 1) 3 == 0

/-- The major-axis loop of `HexGrid::generate` (lines 151-155): `m` iterations, each one
pushing `maj_orig + maj_off * i` on the back of the vector. -/
def majorLoop (maj_orig maj_off : ℚ) (m : Int) (major_axis : List ℚ) : List ℚ :=
  (List.range m.toNat).foldl
    (fun axis (i : Nat) => axis ++ [maj_orig + maj_off * (i : ℚ)])
    major_axis

/-- The minor-axis loop of `HexGrid::generate` (lines 177-189): `m` iterations, the ones
with `(i + 1) % 3 == 0` are skipped by `continue`, the others push
`min_orig + min_off * i`. -/
def minorLoop (min_orig min_off : ℚ) (m : Int) (minor_axis : List ℚ) : List ℚ :=
  (List.range m.toNat).foldl
    (fun axis (i : Nat) =>
      if isPhantom i then axis else axis ++ [min_orig + min_off * (i : ℚ)])
    minor_axis

/-- The number of hexagons to plot along the minor axis (lines 159-173). In the last branch
`int(float(n) / sin60)` converts `n` to binary32, divides by the binary32 constant `sin60`,
rounds the quotient to binary32 and truncates it. -/
def hexCount (n : Int) (centered : Bool) : Int :=
  if centered then
    Int.lor n 1
  else if n = 1 then
    1
  else
    truncToInt (f32 (f32 (n : ℚ) / sin60_f32))

/-- The method `HexGrid::generate(maj_orig, min_orig, grid_size, n, centered)` run on the
grid `g`, with exact arithmetic on the coordinates and unbounded integers. -/
def HexGrid.generate (g : HexGrid) (maj_orig min_orig grid_size : ℚ) (n : Int)
    (centered : Bool) : HexGrid :=
  let maj_off : ℚ := grid_size / ((n * 2 : Int) : ℚ)
  let r : ℚ := (grid_size / ((n * 2 : Int) : ℚ)) / sin60
  let min_off : ℚ := r / 2
  let origin : MajorMinor := { major := maj_orig, minor := min_orig }
  -- `(3 / 2) * r`: the quotient `3 / 2` is a division of two `int` literals
  let offset : MajorMinor :=
    { major := grid_size / (n : ℚ), minor := ((Int.tdiv 3 2 : Int) : ℚ) * r }
  let maj_orig : ℚ := if centered then maj_orig - grid_size / 2 else maj_orig
  let min_orig : ℚ :=
    if centered then min_orig - (r * ((2 + 3 * Int.tdiv n 2 : Int) : ℚ)) / 2 else min_orig
  let m : Int := (n * 2) + 1
  let major_axis := majorLoop maj_orig maj_off m g.major_axis
  let m : Int := hexCount n centered
  let m : Int := (m * 3) + 2
  let minor_axis := minorLoop min_orig min_off m g.minor_axis
  { origin := origin, offset := offset, major_axis := major_axis, minor_axis := minor_axis }

/-- The major-axis loop of `HexGrid::generate` with binary32 rounding: each pass converts
`i` to `float`, multiplies, adds, and pushes the result. -/
def majorLoop_machine (maj_orig maj_off : ℚ) (m : Int) (major_axis : List ℚ) : List ℚ :=
  (List.range m.toNat).foldl
    (fun axis (i : Nat) => axis ++ [f32 (maj_orig + f32 (maj_off * f32 (i : ℚ)))])
    major_axis

/-- The minor-axis loop of `HexGrid::generate` with binary32 rounding. -/
def minorLoop_machine (min_orig min_off : ℚ) (m : Int) (minor_axis : List ℚ) : List ℚ :=
  (List.range m.toNat).foldl
    (fun axis (i : Nat) =>
      if isPhantom i then axis else axis ++ [f32 (min_orig + f32 (min_off * f32 (i : ℚ)))])
    minor_axis

/-- The method `HexGrid::generate` run on the grid `g` with machine arithmetic: every `float`
operation is rounded to binary32 (an `int` operand is converted to `float` first) and every
`int` operation is reduced to 32 bits. The arguments `maj_orig`, `min_orig` and `grid_size`
are the `float` values passed by the caller. -/
def HexGrid.generate_machine (g : HexGrid) (maj_orig min_orig grid_size : ℚ) (n : Int)
    (centered : Bool) : HexGrid :=
  let maj_off : ℚ := f32 (grid_size / f32 ((int32 (n * 2) : Int) : ℚ))
  let r : ℚ := f32 (f32 (grid_size / f32 ((int32 (n * 2) : Int) : ℚ)) / sin60_f32)
  let min_off : ℚ := f32 (r / 2)
  let origin : MajorMinor := { major := maj_orig, minor := min_orig }
  let offset : MajorMinor :=
    { major := f32 (grid_size / f32 (n : ℚ)),
      minor := f32 (f32 ((Int.tdiv 3 2 : Int) : ℚ) * r) }
  let maj_orig : ℚ := if centered then f32 (maj_orig - f32 (grid_size / 2)) else maj_orig
  let min_orig : ℚ :=
    if centered then
      f32 (min_orig - f32 (f32 (r * f32 ((int32 (2 + int32 (3 * Int.tdiv n 2)) : Int) : ℚ)) / 2))
    else min_orig
  let m : Int := int32 (int32 (n * 2) + 1)
  let major_axis := majorLoop_machine maj_orig maj_off m g.major_axis
  let m : Int := hexCount n centered
  let m : Int := int32 (int32 (m * 3) + 2)
  let minor_axis := minorLoop_machine min_orig min_off m g.minor_axis
  { origin := origin, offset := offset, major_axis := major_axis, minor_axis := minor_axis }

/-- The C library function `roundf`: the nearest integer, halfway cases away from zero. -/
def roundf (x : ℚ) : ℚ := if 0 ≤ x then (⌊x + 1 / 2⌋ : ℚ) else (⌈x - 1 / 2⌉ : ℚ)

/-- The method `HexGrid::round(maj, min)` (lines 192-230); the pair returned is the final
value of the two reference parameters `(maj, min)`. Both calls `roundf(minor);` and
`roundf(major);` are expression statements: the value they compute is dropped and the
variable keeps its value. -/
def HexGrid.round (g : HexGrid) (maj min : ℚ) : ℚ × ℚ :=
  let major : ℚ := maj - g.origin.major
  let minor : ℚ := min - g.origin.minor
  let minor : ℚ := minor / g.offset.minor
  let _discarded : ℚ := roundf minor
  let is_odd : Bool := Int.tmod (truncToInt minor) 2 != 0
  let min : ℚ := minor * g.offset.minor
  let min : ℚ := min + g.origin.minor
  -- Scale down
  let major : ℚ := major / g.offset.major
  -- Shift away from center
  let major : ℚ :=
    if is_odd then (if major > 0 then major + 1 / 2 else major - 1 / 2) else major
  -- Snap to nearest integer
  let _discarded : ℚ := roundf major
  -- Shift towards center
  let major : ℚ :=
    if is_odd then (if major > 0 then major - 1 / 2 else major + 1 / 2) else major
  -- Scale up
  let maj : ℚ := major * g.offset.major
  let maj : ℚ := maj + g.origin.major
  (maj, min)

/-- The rounding algorithm as the specification words it (second definition, to compare
with `HexGrid.round`): the minor index is `round(minor_local / offset.minor)`, the snapped
minor coordinate is that index scaled back; the major coordinate is scaled down, shifted by
half a unit away from zero on odd rows, rounded, shifted back toward zero and scaled up. -/
def round_spec (g : HexGrid) (point_major point_minor : ℚ) : ℚ × ℚ :=
  let minor_local : ℚ := point_minor - g.origin.minor
  let major_local : ℚ := point_major - g.origin.major
  let minor_index : ℚ := roundf (minor_local / g.offset.minor)
  let is_odd : Bool := Int.tmod (truncToInt minor_index) 2 != 0
  let snapped_minor : ℚ := minor_index * g.offset.minor + g.origin.minor
  let major_local : ℚ := major_local / g.offset.major
  let major_local : ℚ :=
    if is_odd then (if major_local > 0 then major_local + 1 / 2 else major_local - 1 / 2)
    else major_local
  let major_local : ℚ := roundf major_local
  let major_local : ℚ :=
    if is_odd then (if major_local > 0 then major_local - 1 / 2 else major_local + 1 / 2)
    else major_local
  let snapped_major : ℚ := major_local * g.offset.major + g.origin.major
  (snapped_major, snapped_minor)

/-- The union `vec3d`, read through its fields `x`, `y`, `z`. -/
structure vec3d where
  x : ℚ
  y : ℚ
  z : ℚ
deriving DecidableEq, Repr

/-- The class `HexMesh`. The face array `f_arr` and the flag `x_major` are never read or
written by the functions embedded here and are left out. -/
structure HexMesh where
  Grid : HexGrid
  v_arr : List vec3d
  x_size : Nat
  y_size : Nat
deriving DecidableEq, Repr

/-- The variables that the two nested loops of `HexMesh::generate` update. -/
structure WalkState where
  vert : vec3d
  zig : Bool
  v_arr : List vec3d
deriving DecidableEq, Repr

/-- The value of `minor_size - 1` in `size_t` (64 bit) arithmetic: it wraps to `2^64 - 1` when
`minor_size` is zero. -/
def size_t_pred (minor_size : Nat) : Nat := (minor_size + (2 ^ 64 - 1)) % 2 ^ 64

/-- One pass through the body of the inner loop (lines 252-261) for the indices `j`, `i`:
`none` when an index is outside its vector. -/
def walkStep (major_axis minor_axis : List ℚ) (j : Nat) (st : WalkState) (i : Nat) :
    Option WalkState :=
  if st.zig then
    match minor_axis[j]?, major_axis[i]? with
    | some x, some y =>
      let vert : vec3d := { st.vert with x := x, y := y }
      some { vert := vert, zig := !st.zig, v_arr := st.v_arr ++ [vert] }
    | _, _ => none
  else
    match minor_axis[j + 1]?, major_axis[i]? with
    | some x, some y =>
      let vert : vec3d := { st.vert with x := x, y := y }
      some { vert := vert, zig := !st.zig, v_arr := st.v_arr ++ [vert] }
    | _, _ => none

/-- The inner loop `for (int i = 0; i < major_size; ++i)` (lines 251-262). -/
def innerLoop (major_axis minor_axis : List ℚ) (j : Nat) (st : WalkState) :
    Option WalkState :=
  (List.range major_axis.length).foldlM (walkStep major_axis minor_axis j) st

/-- The outer loop `for (; j < (minor_size - 1); j += 2)` (lines 250-264), entered with the
counter `j`; `bound` is the value of `minor_size - 1`. -/
def outerLoop (major_axis minor_axis : List ℚ) (bound : Nat) (j : Nat) (st : WalkState) :
    Option WalkState :=
  if j < bound then
    match innerLoop major_axis minor_axis j st with
    | none => none
    | some st' => outerLoop major_axis minor_axis bound (j + 2) st'
  else
    some st
termination_by bound - j

/-- The values of the counter `j` at which the body of the outer loop
`for (; j < (minor_size - 1); j += 2)` runs when the loop is entered with the counter `j`;
`bound` is the value of `minor_size - 1`. The body reads `minor_axis[j]` and
`minor_axis[j + 1]`. -/
def outerLoopIndices (bound : Nat) (j : Nat) : List Nat :=
  if j < bound then
    j :: outerLoopIndices bound (j + 2)
  else
    []
termination_by bound - j

/-- The zigzag walk of `HexMesh::generate` (lines 237-264) over the two axis vectors,
appending to `v_arr`: the vertex array after the walk. -/
def zigzagWalk (major_axis minor_axis : List ℚ) (v_arr : List vec3d) : Option (List vec3d) :=
  let vert : vec3d := { x := 0, y := 0, z := 0 }
  let minor_size : Nat := minor_axis.length
  let j : Nat := 0
  let zig : Bool := (j % 2 == 1)
  (outerLoop major_axis minor_axis (size_t_pred minor_size) j
    { vert := vert, zig := zig, v_arr := v_arr }).map (fun st => st.v_arr)

/-- The method `HexMesh::generate()` (lines 233-265). -/
def HexMesh.generate (mesh : HexMesh) : Option HexMesh :=
  let n : Int := 9
  let Grid : HexGrid := mesh.Grid.generate 0 0 2 n true
  let major_size : Nat := Grid.major_axis.length
  let minor_size : Nat := Grid.minor_axis.length
  let y_size : Nat := major_size / 2
  let x_size : Nat := minor_size / 2
  (zigzagWalk Grid.major_axis Grid.minor_axis mesh.v_arr).map
    (fun v_arr => { Grid := Grid, v_arr := v_arr, x_size := x_size, y_size := y_size })

/-- The vertex that the walk over `major_axis` and `minor_axis` puts at position `k` of an
initially empty vertex array. -/
def vertexAt (major_axis minor_axis : List ℚ) (k : Nat) : vec3d :=
  { x := if k % 2 = 0 then minor_axis.getD (2 * (k / major_axis.length) + 1) 0
         else minor_axis.getD (2 * (k / major_axis.length)) 0,
    y := major_axis.getD (k % major_axis.length) 0,
    z := 0 }

/-- The loop invariant of the walk after `len` vertices were emitted into an initially empty
vertex array. -/
def WalkInv (major_axis minor_axis : List ℚ) (len : Nat) (st : WalkState) : Prop :=
  st.v_arr = (List.range len).map (vertexAt major_axis minor_axis)
  ∧ st.zig = decide (len % 2 = 1)
  ∧ st.vert.z = 0

/-- The raw graduation index `3 * floor(k/2) + (k mod 2)` that the `k`-th emitted
minor-axis value is computed from. -/
def rawIndex (k : Nat) : Nat := 3 * (k / 2) + k % 2

/-! ## Loops as lists -/

theorem foldl_push_eq {α : Type} (f : Nat → α) (l : List Nat) (init : List α) :
    l.foldl (fun axis i => axis ++ [f i]) init = init ++ l.map f := by
  induction l generalizing init with
  | nil => simp
  | cons a l ih => simp [ih]

theorem foldl_push_skip_eq {α : Type} (p : Nat → Bool) (f : Nat → α) (l : List Nat)
    (init : List α) :
    l.foldl (fun axis i => if p i then axis else axis ++ [f i]) init
      = init ++ (l.filter (fun i => !p i)).map f := by
  induction l generalizing init with
  | nil => simp
  | cons a l ih =>
    cases h : p a <;> simp [ih, h]

theorem majorLoop_eq (maj_orig maj_off : ℚ) (m : Int) (axis : List ℚ) :
    majorLoop maj_orig maj_off m axis
      = axis ++ (List.range m.toNat).map (fun (i : Nat) => maj_orig + maj_off * (i : ℚ)) := by
  unfold majorLoop
  exact foldl_push_eq _ _ _

theorem minorLoop_eq (min_orig min_off : ℚ) (m : Int) (axis : List ℚ) :
    minorLoop min_orig min_off m axis
      = axis ++ ((List.range m.toNat).filter (fun i => !isPhantom i)).map
          (fun (i : Nat) => min_orig + min_off * (i : ℚ)) := by
  unfold minorLoop
  exact foldl_push_skip_eq _ _ _ _

theorem generate_major_axis (g : HexGrid) (maj_orig min_orig grid_size : ℚ) (n : Int)
    (centered : Bool) :
    (g.generate maj_orig min_orig grid_size n centered).major_axis
      = g.major_axis ++ (List.range (n * 2 + 1).toNat).map
          (fun (i : Nat) => (if centered then maj_orig - grid_size / 2 else maj_orig)
            + grid_size / ((n * 2 : Int) : ℚ) * (i : ℚ)) := by
  simp only [HexGrid.generate, majorLoop_eq]

theorem isPhantom_iff (i : Nat) : isPhantom i = decide ((i + 1) % 3 = 0) := by
  unfold isPhantom
  have h : Int.tmod ((i : Int) + 1) 3 = (((i + 1) % 3 : Nat) : Int) := by
    rw [Int.ofNat_tmod]; rfl
  rw [h]
  by_cases h0 : (i + 1) % 3 = 0
  · simp [h0]
  · simp [h0]
    omega

theorem range_add_three (a : Nat) :
    List.range (a + 3) = List.range a ++ [a, a + 1, a + 2] := by
  rw [List.range_add]
  rfl

theorem range_add_two (a : Nat) : List.range (a + 2) = List.range a ++ [a, a + 1] := by
  rw [List.range_add]
  rfl

/-- The graduations that survive the `continue` are the raw indices `0, 1, 3, 4, 6, 7, ...`. -/
theorem filter_not_phantom_range (m : Nat) :
    (List.range (3 * m + 2)).filter (fun i => !isPhantom i)
      = (List.range (2 * m + 2)).map rawIndex := by
  induction m with
  | zero => decide
  | succ m ih =>
    have e1 : 3 * (m + 1) + 2 = (3 * m + 2) + 3 := by ring
    have e2 : 2 * (m + 1) + 2 = (2 * m + 2) + 2 := by ring
    have p0 : isPhantom (3 * m + 2) = true := by rw [isPhantom_iff]; simp; omega
    have p1 : isPhantom (3 * m + 2 + 1) = false := by rw [isPhantom_iff]; simp; omega
    have p2 : isPhantom (3 * m + 2 + 2) = false := by rw [isPhantom_iff]; simp; omega
    have r1 : rawIndex (2 * m + 2) = 3 * m + 2 + 1 := by unfold rawIndex; omega
    have r2 : rawIndex (2 * m + 2 + 1) = 3 * m + 2 + 2 := by unfold rawIndex; omega
    rw [e1, e2, range_add_three (3 * m + 2), range_add_two (2 * m + 2), List.filter_append,
      List.map_append, ih]
    simp only [List.filter_cons, List.filter_nil, p0, p1, p2, List.map_cons, List.map_nil, r1, r2,
      Bool.not_true, Bool.not_false, if_true, if_false]
    simp

/-- The skipped graduations are the raw indices `2, 5, 8, ...`: one per hexagon. -/
theorem filter_phantom_range (m : Nat) :
    (List.range (3 * m + 2)).filter isPhantom = (List.range m).map (fun k => 3 * k + 2) := by
  induction m with
  | zero => decide
  | succ m ih =>
    have e1 : 3 * (m + 1) + 2 = (3 * m + 2) + 3 := by ring
    have p0 : isPhantom (3 * m + 2) = true := by rw [isPhantom_iff]; simp; omega
    have p1 : isPhantom (3 * m + 2 + 1) = false := by rw [isPhantom_iff]; simp; omega
    have p2 : isPhantom (3 * m + 2 + 2) = false := by rw [isPhantom_iff]; simp; omega
    rw [e1, range_add_three (3 * m + 2), List.filter_append, ih, List.range_succ, List.map_append]
    simp only [List.filter_cons, List.filter_nil, p0, p1, p2, List.map_cons, List.map_nil,
      if_true, if_false]
    simp

/-! ## Binary32 rounding and the hexagon count -/

theorem nat_lor_one (n : Nat) : n ||| 1 = 2 * (n / 2) + 1 := by
  have h1 : (1 : Nat) = Nat.bit true 0 := rfl
  conv_lhs => rw [← Nat.bit_decomp n, h1, Nat.lor_bit]
  simp [Nat.bit_val, Nat.div2_val]

/-- For `n ≥ 0` the expression `n | 1` is `n` rounded up to the nearest odd value. -/
theorem int_lor_one (n : Int) (hn : 0 ≤ n) : Int.lor n 1 = 2 * (n / 2) + 1 := by
  obtain ⟨k, rfl⟩ := Int.eq_ofNat_of_zero_le hn
  have h : Int.lor (k : Int) 1 = ((k ||| 1 : Nat) : Int) := rfl
  rw [h, nat_lor_one]
  push_cast
  rfl

theorem truncToInt_eq_floor (x : ℚ) (hx : 0 ≤ x) : truncToInt x = ⌊x⌋ := by
  unfold truncToInt
  rw [Rat.floor_def, Int.tdiv_eq_ediv (Rat.num_nonneg.mpr hx) (by positivity)]

theorem sin60_pos : 0 < sin60 := by norm_num [sin60]

theorem floor_le_roundHalfEven (q : ℚ) : ⌊q⌋ ≤ roundHalfEven q := by
  unfold roundHalfEven
  split
  · exact le_refl _
  · split
    · omega
    · split
      · exact le_refl _
      · omega

theorem roundHalfEven_eq_of_near (q : ℚ) (k : Int) (h1 : (k : ℚ) - 1 / 2 < q)
    (h2 : q < (k : ℚ) + 1 / 2) : roundHalfEven q = k := by
  unfold roundHalfEven
  by_cases hk : (k : ℚ) ≤ q
  · have hf : ⌊q⌋ = k := by
      rw [Int.floor_eq_iff]
      constructor
      · exact hk
      · linarith
    rw [hf, if_pos (by linarith)]
  · have hf : ⌊q⌋ = k - 1 := by
      rw [Int.floor_eq_iff]
      push_cast
      constructor
      · linarith
      · linarith
    have hk' : q < (k : ℚ) := lt_of_not_ge hk
    rw [hf]
    push_cast
    rw [if_neg (by linarith), if_pos (by linarith)]
    ring

theorem int_log_two_eq (x : ℚ) (e : Int) (h1 : (2 : ℚ) ^ e ≤ x) (h2 : x < (2 : ℚ) ^ (e + 1)) :
    Int.log 2 x = e := by
  have hx : 0 < x := lt_of_lt_of_le (by positivity) h1
  apply le_antisymm
  · have := (Int.lt_zpow_iff_log_lt (by norm_num : 1 < 2) hx).mp (by exact_mod_cast h2)
    omega
  · exact (Int.zpow_le_iff_le_log (by norm_num : 1 < 2) hx).mp (by exact_mod_cast h1)

/-- Evaluation of `f32` at a value whose binade `e` and rounded significand `k` are given. -/
theorem f32_eval (x : ℚ) (e k : Int) (he : -126 ≤ e) (h1 : (2 : ℚ) ^ e ≤ |x|)
    (h2 : |x| < (2 : ℚ) ^ (e + 1)) (h3 : (k : ℚ) - 1 / 2 < x / (2 : ℚ) ^ (e - 23))
    (h4 : x / (2 : ℚ) ^ (e - 23) < (k : ℚ) + 1 / 2) :
    f32 x = (k : ℚ) * (2 : ℚ) ^ (e - 23) := by
  have hx : x ≠ 0 := by
    intro h
    rw [h, abs_zero] at h1
    have : (0 : ℚ) < (2 : ℚ) ^ e := by positivity
    linarith
  unfold f32
  rw [if_neg hx, int_log_two_eq |x| e h1 h2, max_eq_left he, roundHalfEven_eq_of_near _ k h3 h4]

theorem f32_eval_pos (x : ℚ) (e k : Int) (he : -126 ≤ e) (h1 : (2 : ℚ) ^ e ≤ x)
    (h2 : x < (2 : ℚ) ^ (e + 1)) (h3 : (k : ℚ) - 1 / 2 < x / (2 : ℚ) ^ (e - 23))
    (h4 : x / (2 : ℚ) ^ (e - 23) < (k : ℚ) + 1 / 2) :
    f32 x = (k : ℚ) * (2 : ℚ) ^ (e - 23) := by
  have hx : 0 < x := lt_of_lt_of_le (by positivity) h1
  exact f32_eval x e k he (by rwa [abs_of_pos hx]) (by rwa [abs_of_pos hx]) h3 h4

theorem two_pow_23_mul (e : Int) :
    (((2 : Int) ^ 23 : Int) : ℚ) * (2 : ℚ) ^ (e - 23) = (2 : ℚ) ^ e := by
  rw [zpow_sub₀ (by norm_num : (2 : ℚ) ≠ 0) e 23]
  norm_num
  field_simp

/-- Rounding to binary32 does not take a value that is at least `1` below `1`. -/
theorem one_le_f32 (x : ℚ) (hx : 1 ≤ x) : 1 ≤ f32 x := by
  have hx0 : 0 < x := by linarith
  have hne : x ≠ 0 := hx0.ne'
  have habs : |x| = x := abs_of_pos hx0
  have he0 : 0 ≤ Int.log 2 x := by
    rw [Int.log_of_one_le_right 2 hx]
    exact Int.natCast_nonneg _
  have hle : (2 : ℚ) ^ (Int.log 2 x) ≤ x := by
    have := Int.zpow_log_le_self (by norm_num : 1 < 2) hx0
    exact_mod_cast this
  unfold f32
  rw [if_neg hne, habs, max_eq_left (by omega)]
  set e := Int.log 2 x with hedef
  have hulp : (0 : ℚ) < (2 : ℚ) ^ (e - 23) := by positivity
  have hq : (((2 : Int) ^ 23 : Int) : ℚ) ≤ x / (2 : ℚ) ^ (e - 23) := by
    rw [le_div_iff₀ hulp]
    rw [two_pow_23_mul e]
    exact hle
  have hk : (2 : Int) ^ 23 ≤ roundHalfEven (x / (2 : ℚ) ^ (e - 23)) :=
    le_trans (Int.le_floor.mpr hq) (floor_le_roundHalfEven _)
  have hkq : (((2 : Int) ^ 23 : Int) : ℚ) ≤ (roundHalfEven (x / (2 : ℚ) ^ (e - 23)) : ℚ) := by
    exact_mod_cast hk
  have h1e : (1 : ℚ) ≤ (2 : ℚ) ^ e := one_le_zpow₀ (by norm_num) he0
  calc (1 : ℚ) ≤ (2 : ℚ) ^ e := h1e
    _ = (((2 : Int) ^ 23 : Int) : ℚ) * (2 : ℚ) ^ (e - 23) := (two_pow_23_mul e).symm
    _ ≤ (roundHalfEven (x / (2 : ℚ) ^ (e - 23)) : ℚ) * (2 : ℚ) ^ (e - 23) :=
        mul_le_mul_of_nonneg_right hkq hulp.le

theorem sin60_f32_eq : sin60_f32 = 14529495 / 16777216 := by
  unfold sin60_f32 sin60
  rw [f32_eval_pos _ (-1) 14529495 (by norm_num) (by norm_num) (by norm_num) (by norm_num)
    (by norm_num)]
  norm_num


theorem sin60_f32_pos : 0 < sin60_f32 := by rw [sin60_f32_eq]; norm_num

theorem sin60_f32_le_one : sin60_f32 ≤ 1 := by rw [sin60_f32_eq]; norm_num

/-- The binary32 quotient `float(n) / sin60` is at least `1` for `n ≥ 1`. -/
theorem one_le_f32_quotient (n : Int) (hn : 1 ≤ n) : 1 ≤ f32 (f32 (n : ℚ) / sin60_f32) := by
  have h1 : (1 : ℚ) ≤ f32 (n : ℚ) := one_le_f32 _ (by exact_mod_cast hn)
  apply one_le_f32
  rw [le_div_iff₀ sin60_f32_pos]
  linarith [sin60_f32_le_one]

theorem hexCount_pos (n : Int) (hn : 1 ≤ n) (centered : Bool) : 1 ≤ hexCount n centered := by
  unfold hexCount
  split
  · rw [int_lor_one n (by omega)]
    omega
  · split
    · exact le_refl _
    · have h1 := one_le_f32_quotient n hn
      rw [truncToInt_eq_floor _ (by linarith), Int.le_floor]
      exact_mod_cast h1

theorem int32_eq_self (x : Int) (h1 : -2 ^ 31 ≤ x) (h2 : x < 2 ^ 31) : int32 x = x := by
  unfold int32
  omega

/-- The minor axis written by `generate`, in closed form: `m` is the hexagon count. -/
theorem generate_minor_axis (g : HexGrid) (maj_orig min_orig grid_size : ℚ) (n : Int)
    (centered : Bool) (hn : 1 ≤ n) (m : Nat) (hm : (m : Int) = hexCount n centered) :
    (g.generate maj_orig min_orig grid_size n centered).minor_axis
      = g.minor_axis ++ (List.range (2 * m + 2)).map
          (fun (k : Nat) =>
            (if centered then
                min_orig - (grid_size / (2 * (n : ℚ)) / sin60
                  * ((2 + 3 * (n / 2) : Int) : ℚ)) / 2
              else min_orig)
            + grid_size / (2 * (n : ℚ)) / sin60 / 2 * (rawIndex k : ℚ)) := by
  have htd : Int.tdiv n 2 = n / 2 := Int.tdiv_eq_ediv (by omega) (by decide)
  have hcast : ((n * 2 : Int) : ℚ) = 2 * (n : ℚ) := by push_cast; ring
  have hnat : ((m : Int) * 3 + 2).toNat = 3 * m + 2 := by omega
  simp only [HexGrid.generate, minorLoop_eq, ← hm, hnat, filter_not_phantom_range, List.map_map,
    htd, hcast]
  rfl

/-! ## The zigzag walk -/

theorem walkStep_inv (major_axis minor_axis : List ℚ) (s i : Nat) (st : WalkState)
    (hi : i < major_axis.length) (hs : 2 * s + 1 < minor_axis.length)
    (hinv : WalkInv major_axis minor_axis (s * major_axis.length + i) st) :
    ∃ st', walkStep major_axis minor_axis (2 * s) st i = some st'
      ∧ WalkInv major_axis minor_axis (s * major_axis.length + i + 1) st' := by
  obtain ⟨hv, hz, hvz⟩ := hinv
  have hdiv : (s * major_axis.length + i) / major_axis.length = s := by
    rw [Nat.add_comm, Nat.add_mul_div_right _ _ (by omega), Nat.div_eq_of_lt hi]
    omega
  have hmod : (s * major_axis.length + i) % major_axis.length = i := by
    rw [Nat.add_comm, Nat.add_mul_mod_self_right, Nat.mod_eq_of_lt hi]
  have hj0 : minor_axis[2 * s]? = some (minor_axis.getD (2 * s) 0) := by
    have h : 2 * s < minor_axis.length := by omega
    rw [List.getD_eq_getElem _ _ h, List.getElem?_eq_getElem h]
  have hj1 : minor_axis[2 * s + 1]? = some (minor_axis.getD (2 * s + 1) 0) := by
    rw [List.getD_eq_getElem _ _ hs, List.getElem?_eq_getElem hs]
  have hi0 : major_axis[i]? = some (major_axis.getD i 0) := by
    rw [List.getD_eq_getElem _ _ hi, List.getElem?_eq_getElem hi]
  have hva : vertexAt major_axis minor_axis (s * major_axis.length + i)
      = { x := if st.zig then minor_axis.getD (2 * s) 0 else minor_axis.getD (2 * s + 1) 0,
          y := major_axis.getD i 0, z := st.vert.z } := by
    unfold vertexAt
    rw [hdiv, hmod, hvz, hz]
    by_cases hpar : (s * major_axis.length + i) % 2 = 1
    · have : ¬ (s * major_axis.length + i) % 2 = 0 := by omega
      simp [hpar, this]
    · have : (s * major_axis.length + i) % 2 = 0 := by omega
      simp [hpar, this]
  refine ⟨{ vert := vertexAt major_axis minor_axis (s * major_axis.length + i),
            zig := !st.zig,
            v_arr := st.v_arr ++ [vertexAt major_axis minor_axis (s * major_axis.length + i)] },
    ?_, ?_, ?_, ?_⟩
  · unfold walkStep
    rw [hva]
    cases hzig : st.zig
    · simp only [hj1, hi0, Bool.false_eq_true, if_false]
    · simp only [hj0, hi0, if_true]
  · simp only [hv, List.range_succ, List.map_append, List.map_cons, List.map_nil]
  · simp only [hz]
    by_cases hpar : (s * major_axis.length + i) % 2 = 1
    · have : ¬ (s * major_axis.length + i + 1) % 2 = 1 := by omega
      simp [hpar, this]
    · have : (s * major_axis.length + i + 1) % 2 = 1 := by omega
      simp [hpar, this]
  · rfl

theorem innerLoop_upto_inv (major_axis minor_axis : List ℚ) (s : Nat) (st : WalkState)
    (hs : 2 * s + 1 < minor_axis.length)
    (hinv : WalkInv major_axis minor_axis (s * major_axis.length) st) :
    ∀ i : Nat, i ≤ major_axis.length →
      ∃ st', (List.range i).foldlM (walkStep major_axis minor_axis (2 * s)) st = some st'
        ∧ WalkInv major_axis minor_axis (s * major_axis.length + i) st' := by
  intro i
  induction i with
  | zero =>
    intro _
    exact ⟨st, rfl, hinv⟩
  | succ i ih =>
    intro hi
    obtain ⟨st1, h1, hinv1⟩ := ih (by omega)
    obtain ⟨st2, h2, hinv2⟩ := walkStep_inv major_axis minor_axis s i st1 (by omega) hs hinv1
    refine ⟨st2, ?_, hinv2⟩
    rw [List.range_succ, List.foldlM_append, h1]
    simp [h2]

theorem innerLoop_inv (major_axis minor_axis : List ℚ) (s : Nat) (st : WalkState)
    (hs : 2 * s + 1 < minor_axis.length)
    (hinv : WalkInv major_axis minor_axis (s * major_axis.length) st) :
    ∃ st', innerLoop major_axis minor_axis (2 * s) st = some st'
      ∧ WalkInv major_axis minor_axis ((s + 1) * major_axis.length) st' := by
  obtain ⟨st', h, hinv'⟩ :=
    innerLoop_upto_inv major_axis minor_axis s st hs hinv major_axis.length (le_refl _)
  refine ⟨st', h, ?_⟩
  have e : (s + 1) * major_axis.length = s * major_axis.length + major_axis.length := by ring
  rw [e]
  exact hinv'

theorem outerLoop_inv (major_axis minor_axis : List ℚ) :
    ∀ (d s : Nat) (st : WalkState), d = minor_axis.length / 2 - s →
      s ≤ minor_axis.length / 2 →
      WalkInv major_axis minor_axis (s * major_axis.length) st →
      ∃ st', outerLoop major_axis minor_axis (minor_axis.length - 1) (2 * s) st = some st'
        ∧ WalkInv major_axis minor_axis (minor_axis.length / 2 * major_axis.length) st' := by
  intro d
  induction d with
  | zero =>
    intro s st hd hs hinv
    have hs' : s = minor_axis.length / 2 := by omega
    refine ⟨st, ?_, hs' ▸ hinv⟩
    rw [outerLoop, if_neg (by omega)]
  | succ d ih =>
    intro s st hd hs hinv
    obtain ⟨st1, h1, hinv1⟩ :=
      innerLoop_inv major_axis minor_axis s st (by omega) hinv
    obtain ⟨st2, h2, hinv2⟩ := ih (s + 1) st1 (by omega) (by omega) hinv1
    refine ⟨st2, ?_, hinv2⟩
    rw [outerLoop, if_pos (by omega), h1]
    exact h2

theorem size_t_pred_eq (minor_size : Nat) (h1 : 1 ≤ minor_size) (h2 : minor_size < 2 ^ 64) :
    size_t_pred minor_size = minor_size - 1 := by
  unfold size_t_pred
  omega

/-- The vertex array after the walk, in closed form. -/
theorem zigzagWalk_eq (major_axis minor_axis : List ℚ) (h1 : minor_axis ≠ [])
    (h2 : minor_axis.length < 2 ^ 64) :
    zigzagWalk major_axis minor_axis []
      = some ((List.range (minor_axis.length / 2 * major_axis.length)).map
          (vertexAt major_axis minor_axis)) := by
  have hlen : 1 ≤ minor_axis.length := by
    cases minor_axis with
    | nil => exact absurd rfl h1
    | cons a l => simp
  obtain ⟨st', h, hinv⟩ := outerLoop_inv major_axis minor_axis (minor_axis.length / 2) 0
    { vert := { x := 0, y := 0, z := 0 }, zig := false, v_arr := [] } rfl (Nat.zero_le _)
    ⟨by simp, by simp, rfl⟩
  unfold zigzagWalk
  simp only [size_t_pred_eq _ hlen h2]
  have hz : ((0 : Nat) % 2 == 1) = false := rfl
  rw [hz]
  simp only [Nat.mul_zero] at h
  rw [h]
  simp [hinv.1]

/-- C4: for every major axis and every non-empty minor axis (a `std::vector`, so shorter than
`2^64`), the vertex list built by the zigzag walk of `HexMesh::generate`, starting from an
empty `v_arr`, has exactly `major_axis.length * floor(minor_axis.length / 2)` vertices. -/
theorem zigzagWalk_length (major_axis minor_axis : List ℚ) (h1 : minor_axis ≠ [])
    (h2 : minor_axis.length < 2 ^ 64) :
    ∃ v_arr : List vec3d, zigzagWalk major_axis minor_axis [] = some v_arr
      ∧ v_arr.length = major_axis.length * (minor_axis.length / 2) := by
  refine ⟨_, zigzagWalk_eq major_axis minor_axis h1 h2, ?_⟩
  simp only [List.length_map, List.length_range]
  exact Nat.mul_comm _ _

theorem zigzagWalk_length_witness :
    (([1, 2, 3, 4, 5] : List ℚ) ≠ [] ∧ ([1, 2, 3, 4, 5] : List ℚ).length < 2 ^ 64) ∧
    ∃ v_arr : List vec3d, zigzagWalk [10, 20, 30] [1, 2, 3, 4, 5] [] = some v_arr
      ∧ v_arr.length = ([10, 20, 30] : List ℚ).length * (([1, 2, 3, 4, 5] : List ℚ).length / 2) :=
  ⟨⟨by simp, by simp⟩, zigzagWalk_length [10, 20, 30] [1, 2, 3, 4, 5] (by simp) (by simp)⟩

/-- C5: in the vertex list built by the walk, for every strip `s` in
`[0, floor(minor_size/2))` and every `i` in `[0, major_size)`, the vertex at position
`k = s*major_size + i` has `y = major_axis[i]`, `z = 0`, and `x = minor_axis[2s+1]` when `k`
is even and `x = minor_axis[2s]` when `k` is odd (the zig flag is toggled on every emitted
vertex and never reset between strips). -/
theorem zigzagWalk_vertex (major_axis minor_axis : List ℚ) (h1 : minor_axis ≠ [])
    (h2 : minor_axis.length < 2 ^ 64) :
    ∃ v_arr : List vec3d, zigzagWalk major_axis minor_axis [] = some v_arr
      ∧ ∀ s i : Nat, s < minor_axis.length / 2 → i < major_axis.length →
          ∃ x y : ℚ,
            (if (s * major_axis.length + i) % 2 = 0 then minor_axis[2 * s + 1]?
              else minor_axis[2 * s]?) = some x
            ∧ major_axis[i]? = some y
            ∧ v_arr[s * major_axis.length + i]? = some { x := x, y := y, z := 0 } := by
  refine ⟨_, zigzagWalk_eq major_axis minor_axis h1 h2, ?_⟩
  intro s i hs hi
  have hs0 : 2 * s < minor_axis.length := by omega
  have hs1 : 2 * s + 1 < minor_axis.length := by omega
  have hk : s * major_axis.length + i < minor_axis.length / 2 * major_axis.length := by
    calc s * major_axis.length + i < s * major_axis.length + major_axis.length := by omega
      _ = (s + 1) * major_axis.length := by ring
      _ ≤ minor_axis.length / 2 * major_axis.length := Nat.mul_le_mul_right _ hs
  have hdiv : (s * major_axis.length + i) / major_axis.length = s := by
    rw [Nat.add_comm, Nat.add_mul_div_right _ _ (by omega), Nat.div_eq_of_lt hi]
    omega
  have hmod : (s * major_axis.length + i) % major_axis.length = i := by
    rw [Nat.add_comm, Nat.add_mul_mod_self_right, Nat.mod_eq_of_lt hi]
  refine ⟨if (s * major_axis.length + i) % 2 = 0 then minor_axis.getD (2 * s + 1) 0
      else minor_axis.getD (2 * s) 0, major_axis.getD i 0, ?_, ?_, ?_⟩
  · split
    · rw [List.getD_eq_getElem _ _ hs1, List.getElem?_eq_getElem hs1]
    · rw [List.getD_eq_getElem _ _ hs0, List.getElem?_eq_getElem hs0]
  · rw [List.getD_eq_getElem _ _ hi, List.getElem?_eq_getElem hi]
  · simp only [List.getElem?_map, List.getElem?_range hk, Option.map_some']
    unfold vertexAt
    rw [hdiv, hmod]

theorem zigzagWalk_vertex_witness :
    (([1, 2, 3, 4] : List ℚ) ≠ [] ∧ ([1, 2, 3, 4] : List ℚ).length < 2 ^ 64) ∧
    ∃ v_arr : List vec3d, zigzagWalk [10, 20, 30] [1, 2, 3, 4] [] = some v_arr
      ∧ ∀ s i : Nat, s < ([1, 2, 3, 4] : List ℚ).length / 2 →
          i < ([10, 20, 30] : List ℚ).length →
          ∃ x y : ℚ,
            (if (s * ([10, 20, 30] : List ℚ).length + i) % 2 = 0
              then ([1, 2, 3, 4] : List ℚ)[2 * s + 1]?
              else ([1, 2, 3, 4] : List ℚ)[2 * s]?) = some x
            ∧ ([10, 20, 30] : List ℚ)[i]? = some y
            ∧ v_arr[s * ([10, 20, 30] : List ℚ).length + i]? = some { x := x, y := y, z := 0 } :=
  ⟨⟨by simp, by simp⟩, zigzagWalk_vertex [10, 20, 30] [1, 2, 3, 4] (by simp) (by simp)⟩

/-! ## Rounding -/

/-- The two half-unit shifts of `HexGrid::round` cancel when nothing happens in between. -/
theorem shift_unshift (b : Bool) (x : ℚ) :
    (if b then
        (if (if b then (if x > 0 then x + 1 / 2 else x - 1 / 2) else x) > 0
          then (if b then (if x > 0 then x + 1 / 2 else x - 1 / 2) else x) - 1 / 2
          else (if b then (if x > 0 then x + 1 / 2 else x - 1 / 2) else x) + 1 / 2)
      else (if b then (if x > 0 then x + 1 / 2 else x - 1 / 2) else x)) = x := by
  cases b
  · simp
  · by_cases hx : x > 0
    · have h2 : x + 1 / 2 > 0 := by linarith
      simp only [if_true, if_pos hx, if_pos h2]
      ring
    · have h2 : ¬ (x - 1 / 2 > 0) := by linarith
      simp only [if_true, if_neg hx, if_neg h2]
      ring

/-- With non-zero offsets `HexGrid::round` hands back the point it was given (exact
arithmetic): the values of both `roundf` calls are dropped. -/
theorem round_eq_self (g : HexGrid) (maj min : ℚ) (h1 : g.offset.major ≠ 0)
    (h2 : g.offset.minor ≠ 0) : g.round maj min = (maj, min) := by
  unfold HexGrid.round
  simp only [shift_unshift]
  have hmin : (min - g.origin.minor) / g.offset.minor * g.offset.minor + g.origin.minor
      = min := by
    field_simp
  have hmaj : (maj - g.origin.major) / g.offset.major * g.offset.major + g.origin.major
      = maj := by
    field_simp
  rw [hmin, hmaj]

theorem generate_offset (g : HexGrid) (maj_orig min_orig grid_size : ℚ) (n : Int)
    (centered : Bool) :
    (g.generate maj_orig min_orig grid_size n centered).offset
      = { major := grid_size / (n : ℚ), minor := grid_size / (2 * (n : ℚ)) / sin60 } := by
  have h : Int.tdiv 3 2 = 1 := by decide
  have hcast : ((n * 2 : Int) : ℚ) = 2 * (n : ℚ) := by push_cast; ring
  simp only [HexGrid.generate, h, hcast]
  simp

theorem generate_origin (g : HexGrid) (maj_orig min_orig grid_size : ℚ) (n : Int)
    (centered : Bool) :
    (g.generate maj_orig min_orig grid_size n centered).origin
      = { major := maj_orig, minor := min_orig } := rfl

theorem generate_offset_ne_zero (g : HexGrid) (maj_orig min_orig grid_size : ℚ) (n : Int)
    (centered : Bool) (hn : 1 ≤ n) (hgs : 0 < grid_size) :
    (g.generate maj_orig min_orig grid_size n centered).offset.major ≠ 0
    ∧ (g.generate maj_orig min_orig grid_size n centered).offset.minor ≠ 0 := by
  have hnq : (0 : ℚ) < (n : ℚ) := by exact_mod_cast (by omega : (0 : Int) < n)
  rw [generate_offset]
  constructor
  · exact (div_pos hgs hnq).ne'
  · exact (div_pos (div_pos hgs (by linarith)) sin60_pos).ne'

theorem roundf_eq_zero (x : ℚ) (h0 : 0 ≤ x) (h1 : x < 1 / 2) : roundf x = 0 := by
  unfold roundf
  rw [if_pos h0]
  have : ⌊x + 1 / 2⌋ = 0 := by
    rw [Int.floor_eq_iff]
    constructor
    · push_cast; linarith
    · push_cast; linarith
  rw [this]
  simp

/-- C6 (evaluation of the code): on the grid made by `generate(0, 0, 2, 1, true)` the point
`(1/2, 1/4)` comes back from `HexGrid::round` unchanged, while the algorithm of the
specification snaps it to the lattice point `(0, 0)`. -/
theorem round_returns_input_not_lattice_point :
    ((HexGrid.mk ⟨0, 0⟩ ⟨0, 0⟩ [] []).generate 0 0 2 1 true).round (1 / 2) (1 / 4)
      = (1 / 2, 1 / 4)
    ∧ round_spec ((HexGrid.mk ⟨0, 0⟩ ⟨0, 0⟩ [] []).generate 0 0 2 1 true) (1 / 2) (1 / 4)
      = (0, 0) := by
  constructor
  · exact round_eq_self _ _ _
      (generate_offset_ne_zero _ 0 0 2 1 true (by decide) (by norm_num)).1
      (generate_offset_ne_zero _ 0 0 2 1 true (by decide) (by norm_num)).2
  · have hr1 : roundf (((1 : ℚ) / 4 - 0) / (2 / (2 * ((1 : Int) : ℚ)) / sin60)) = 0 := by
      apply roundf_eq_zero <;> norm_num [sin60]
    have hr2 : roundf (((1 : ℚ) / 2 - 0) / (2 / ((1 : Int) : ℚ))) = 0 := by
      apply roundf_eq_zero <;> norm_num
    have ht : truncToInt 0 = 0 := by decide
    have hodd : (Int.tmod 0 2 != 0) = false := by decide
    simp only [round_spec, generate_offset, generate_origin, hr1, ht, hodd, Bool.false_eq_true,
      if_false, hr2]
    norm_num

/-- C7 (what the code stores): for every `grid_size > 0` and `n ≥ 1`, after `generate` the
major offset is `grid_size / n`, and the minor offset is the circumradius
`r = (grid_size / (2n)) / sin60` itself, which is not `1.5 * r`: in `(3 / 2) * r` the
quotient of the two `int` literals is `1`. -/
theorem generate_offset_minor_is_radius (g : HexGrid) (maj_orig min_orig grid_size : ℚ)
    (n : Int) (centered : Bool) (hn : 1 ≤ n) (hgs : 0 < grid_size) :
    (g.generate maj_orig min_orig grid_size n centered).offset.major = grid_size / (n : ℚ)
    ∧ (g.generate maj_orig min_orig grid_size n centered).offset.minor
        = (grid_size / (2 * (n : ℚ))) / (8660254 / 10000000 : ℚ)
    ∧ (g.generate maj_orig min_orig grid_size n centered).offset.minor
        ≠ (3 / 2 : ℚ) * ((grid_size / (2 * (n : ℚ))) / (8660254 / 10000000 : ℚ)) := by
  have hnq : (0 : ℚ) < (n : ℚ) := by exact_mod_cast (by omega : (0 : Int) < n)
  have hr : (0 : ℚ) < (grid_size / (2 * (n : ℚ))) / (8660254 / 10000000 : ℚ) :=
    div_pos (div_pos hgs (by linarith)) (by norm_num)
  rw [generate_offset]
  refine ⟨rfl, rfl, ?_⟩
  show (grid_size / (2 * (n : ℚ))) / sin60
    ≠ (3 / 2 : ℚ) * ((grid_size / (2 * (n : ℚ))) / (8660254 / 10000000 : ℚ))
  unfold sin60
  intro h
  linarith

theorem generate_offset_minor_is_radius_witness :
    ((1 : Int) ≤ 1 ∧ (0 : ℚ) < 2) ∧
    (((HexGrid.mk ⟨0, 0⟩ ⟨0, 0⟩ [] []).generate 0 0 2 1 true).offset.major
        = 2 / ((1 : Int) : ℚ)
    ∧ ((HexGrid.mk ⟨0, 0⟩ ⟨0, 0⟩ [] []).generate 0 0 2 1 true).offset.minor
        = (2 / (2 * ((1 : Int) : ℚ))) / (8660254 / 10000000 : ℚ)
    ∧ ((HexGrid.mk ⟨0, 0⟩ ⟨0, 0⟩ [] []).generate 0 0 2 1 true).offset.minor
        ≠ (3 / 2 : ℚ) * ((2 / (2 * ((1 : Int) : ℚ))) / (8660254 / 10000000 : ℚ))) :=
  ⟨⟨by decide, by norm_num⟩,
    generate_offset_minor_is_radius (HexGrid.mk ⟨0, 0⟩ ⟨0, 0⟩ [] []) 0 0 2 1 true (by decide)
      (by norm_num)⟩

/-- C12 (counterexample): after `generate(0, 0, 2, 1, false)` the minor axis has four
elements, not two. -/
theorem corner_degenerate_minor_length_ne_two :
    ¬ (((HexGrid.mk ⟨0, 0⟩ ⟨0, 0⟩ [] []).generate 0 0 2 1 false).major_axis.length = 3
      ∧ ((HexGrid.mk ⟨0, 0⟩ ⟨0, 0⟩ [] []).generate 0 0 2 1 false).minor_axis.length = 2) := by
  have hm : ((1 : Nat) : Int) = hexCount 1 false := by decide
  rw [generate_minor_axis _ 0 0 2 1 false (by decide) 1 hm]
  simp

/-- C12 (amended): the corner-mode degenerate call `generate(0, 0, 2, 1, false)` takes the
`m = 1` special case and yields a `major_axis` of length 3 and a `minor_axis` of length 4:
the `3*1+2 = 5` raw graduations minus the one phantom, at the raw indices `0, 1, 3, 4`. -/
theorem corner_degenerate_lengths :
    hexCount 1 false = 1
    ∧ ((HexGrid.mk ⟨0, 0⟩ ⟨0, 0⟩ [] []).generate 0 0 2 1 false).major_axis.length = 3
    ∧ ((HexGrid.mk ⟨0, 0⟩ ⟨0, 0⟩ [] []).generate 0 0 2 1 false).minor_axis.length = 4
    ∧ ((HexGrid.mk ⟨0, 0⟩ ⟨0, 0⟩ [] []).generate 0 0 2 1 false).minor_axis
        = ([0, 1, 3, 4] : List Nat).map
            (fun (i : Nat) => (0 : ℚ) + 2 / (2 * ((1 : Int) : ℚ)) / sin60 / 2 * (i : ℚ))
    ∧ (List.range (3 * 1 + 2)).filter isPhantom = [2] := by
  have hm : ((1 : Nat) : Int) = hexCount 1 false := by decide
  refine ⟨by decide, ?_, ?_, ?_, by decide⟩
  · rw [generate_major_axis]
    have h3 : ((1 : Int) * 2 + 1).toNat = 3 := by decide
    rw [h3]
    simp
  · rw [generate_minor_axis _ 0 0 2 1 false (by decide) 1 hm]
    simp
  · rw [generate_minor_axis _ 0 0 2 1 false (by decide) 1 hm]
    have hr : (List.range (2 * 1 + 2)).map rawIndex = [0, 1, 3, 4] := by decide
    rw [← hr, List.map_map]
    simp only [List.nil_append, Bool.false_eq_true, if_false]
    rfl

/-! ## The walk stays inside the axes -/

/-- The outer loop is the inner loop run once for each counter of `outerLoopIndices`. -/
theorem outerLoop_eq_foldlM (major_axis minor_axis : List ℚ) (bound : Nat) :
    ∀ (d j : Nat) (st : WalkState), bound - j ≤ d →
      outerLoop major_axis minor_axis bound j st
        = (outerLoopIndices bound j).foldlM
            (fun st j => innerLoop major_axis minor_axis j st) st := by
  intro d
  induction d with
  | zero =>
    intro j st hd
    rw [outerLoop, outerLoopIndices, if_neg (by omega), if_neg (by omega)]
    rfl
  | succ d ih =>
    intro j st hd
    by_cases hj : j < bound
    · rw [outerLoop, outerLoopIndices, if_pos hj, if_pos hj, List.foldlM_cons]
      cases h : innerLoop major_axis minor_axis j st with
      | none => rfl
      | some st' =>
        simp only [Option.bind_eq_bind, Option.some_bind]
        exact ih (j + 2) st' (by omega)
    · rw [outerLoop, outerLoopIndices, if_neg hj, if_neg hj]
      rfl

theorem mem_outerLoopIndices (bound : Nat) :
    ∀ (d j0 : Nat), bound - j0 ≤ d →
      ∀ j : Nat, j ∈ outerLoopIndices bound j0 ↔ (j0 ≤ j ∧ j < bound ∧ (j - j0) % 2 = 0) := by
  intro d
  induction d with
  | zero =>
    intro j0 hd j
    rw [outerLoopIndices, if_neg (by omega)]
    simp only [List.not_mem_nil, false_iff]
    omega
  | succ d ih =>
    intro j0 hd j
    by_cases hj : j0 < bound
    · rw [outerLoopIndices, if_pos hj, List.mem_cons, ih (j0 + 2) (by omega) j]
      omega
    · rw [outerLoopIndices, if_neg hj]
      simp only [List.not_mem_nil, false_iff]
      omega

/-! ## The machine-arithmetic embedding -/

theorem truncToInt_of_floor (x : ℚ) (k : Int) (h0 : 0 ≤ x) (h1 : (k : ℚ) ≤ x)
    (h2 : x < (k : ℚ) + 1) : truncToInt x = k := by
  rw [truncToInt_eq_floor x h0, Int.floor_eq_iff]
  exact ⟨h1, h2⟩

theorem hexCount_3691 : hexCount 3691 false = 4262 := by
  have hf0 : f32 (3691 : ℚ) = (3691 : ℚ) := by
    rw [f32_eval_pos _ (11) (15118336) (by norm_num) (by norm_num) (by norm_num) (by norm_num)
      (by norm_num)]
    norm_num
  have hf1 : f32 (61924704256 / 14529495 : ℚ) = (4262 : ℚ) := by
    rw [f32_eval_pos _ (12) (8728576) (by norm_num) (by norm_num) (by norm_num) (by norm_num)
      (by norm_num)]
    norm_num
  have ht0 : truncToInt (4262 : ℚ) = 4262 :=
    truncToInt_of_floor _ _ (by norm_num) (by norm_num) (by norm_num)
  norm_num [hexCount, sin60_f32_eq, hf0, hf1, ht0]

theorem hexCount_9 : hexCount 9 false = 10 := by
  have hf0 : f32 (9 : ℚ) = (9 : ℚ) := by
    rw [f32_eval_pos _ (3) (9437184) (by norm_num) (by norm_num) (by norm_num) (by norm_num)
      (by norm_num)]
    norm_num
  have hf1 : f32 (50331648 / 4843165 : ℚ) = (5448561 / 524288 : ℚ) := by
    rw [f32_eval_pos _ (3) (10897122) (by norm_num) (by norm_num) (by norm_num) (by norm_num)
      (by norm_num)]
    norm_num
  have ht0 : truncToInt (5448561 / 524288 : ℚ) = 10 :=
    truncToInt_of_floor _ _ (by norm_num) (by norm_num) (by norm_num)
  norm_num [hexCount, sin60_f32_eq, hf0, hf1, ht0]

theorem majorLoop_machine_eq (maj_orig maj_off : ℚ) (m : Int) (axis : List ℚ) :
    majorLoop_machine maj_orig maj_off m axis
      = axis ++ (List.range m.toNat).map
          (fun (i : Nat) => f32 (maj_orig + f32 (maj_off * f32 (i : ℚ)))) := by
  unfold majorLoop_machine
  exact foldl_push_eq _ _ _

theorem minorLoop_machine_eq (min_orig min_off : ℚ) (m : Int) (axis : List ℚ) :
    minorLoop_machine min_orig min_off m axis
      = axis ++ ((List.range m.toNat).filter (fun i => !isPhantom i)).map
          (fun (i : Nat) => f32 (min_orig + f32 (min_off * f32 (i : ℚ)))) := by
  unfold minorLoop_machine
  exact foldl_push_skip_eq _ _ _ _

theorem generate_machine_major_axis (g : HexGrid) (maj_orig min_orig grid_size : ℚ) (n : Int)
    (centered : Bool) :
    (g.generate_machine maj_orig min_orig grid_size n centered).major_axis
      = g.major_axis ++ (List.range (int32 (int32 (n * 2) + 1)).toNat).map
          (fun (i : Nat) =>
            f32 ((if centered then f32 (maj_orig - f32 (grid_size / 2)) else maj_orig)
              + f32 (f32 (grid_size / f32 ((int32 (n * 2) : Int) : ℚ)) * f32 (i : ℚ)))) := by
  simp only [HexGrid.generate_machine, majorLoop_machine_eq]

/-- The minor axis written by `generate_machine` when `(m * 3) + 2` does not overflow: `m` is
the hexagon count, the emitted raw indices are `rawIndex 0, rawIndex 1, ...`. -/
theorem generate_machine_minor_axis (g : HexGrid) (maj_orig min_orig grid_size : ℚ) (n : Int)
    (centered : Bool) (m : Nat) (hm : (m : Int) = hexCount n centered)
    (hov : hexCount n centered * 3 + 2 < 2 ^ 31) :
    (g.generate_machine maj_orig min_orig grid_size n centered).minor_axis
      = g.minor_axis ++ (List.range (2 * m + 2)).map
          (fun (k : Nat) =>
            f32 ((if centered then
                f32 (min_orig - f32 (f32 (
                  f32 (f32 (grid_size / f32 ((int32 (n * 2) : Int) : ℚ)) / sin60_f32)
                    * f32 ((int32 (2 + int32 (3 * Int.tdiv n 2)) : Int) : ℚ)) / 2))
              else min_orig)
            + f32 (f32 (f32 (f32 (grid_size / f32 ((int32 (n * 2) : Int) : ℚ)) / sin60_f32) / 2)
                * f32 (rawIndex k : ℚ)))) := by
  rw [← hm] at hov
  have h1 : int32 ((m : Int) * 3) = (m : Int) * 3 := int32_eq_self _ (by omega) (by omega)
  have h2 : int32 ((m : Int) * 3 + 2) = (m : Int) * 3 + 2 :=
    int32_eq_self _ (by omega) (by omega)
  have hnat : ((m : Int) * 3 + 2).toNat = 3 * m + 2 := by omega
  simp only [HexGrid.generate_machine, minorLoop_machine_eq, ← hm, h1, h2, hnat,
    filter_not_phantom_range, List.map_map]
  rfl

/-- When no `int` expression overflows, both axes of the machine-arithmetic embedding have
the lengths of the axes of the exact embedding. -/
theorem generate_machine_lengths (g : HexGrid) (maj_orig min_orig grid_size : ℚ) (n : Int)
    (centered : Bool) (hn : 1 ≤ n) (hov1 : n * 2 + 1 < 2 ^ 31)
    (hov2 : hexCount n centered * 3 + 2 < 2 ^ 31) :
    (g.generate_machine maj_orig min_orig grid_size n centered).major_axis.length
        = (g.generate maj_orig min_orig grid_size n centered).major_axis.length
    ∧ (g.generate_machine maj_orig min_orig grid_size n centered).minor_axis.length
        = (g.generate maj_orig min_orig grid_size n centered).minor_axis.length := by
  have hpos := hexCount_pos n hn centered
  have hm : ((hexCount n centered).toNat : Int) = hexCount n centered :=
    Int.toNat_of_nonneg (by omega)
  have h2n : int32 (n * 2) = n * 2 := int32_eq_self _ (by omega) (by omega)
  have h2n1 : int32 (n * 2 + 1) = n * 2 + 1 := int32_eq_self _ (by omega) (by omega)
  constructor
  · rw [generate_machine_major_axis, generate_major_axis, h2n, h2n1]
    simp only [List.length_append, List.length_map, List.length_range]
  · rw [generate_machine_minor_axis g maj_orig min_orig grid_size n centered _ hm hov2,
      generate_minor_axis g maj_orig min_orig grid_size n centered hn _ hm]
    simp only [List.length_append, List.length_map, List.length_range]

/-- C2 (counterexample): in corner mode with `n = 3691` the binary32 quotient
`float(3691) / sin60` rounds to `4262.0`, so the code takes `m = 4262` and `minor_axis` gets
`8526` elements, while `floor(3691 / 0.8660254) = 4261` would give `8524`. -/
theorem corner_3691_minor_length_not_floor :
    ⌊(3691 : ℚ) / (8660254 / 10000000 : ℚ)⌋ = 4261
    ∧ ((HexGrid.mk ⟨0, 0⟩ ⟨0, 0⟩ [] []).generate_machine 0 0 2 3691 false).minor_axis.length
        = 8526
    ∧ ¬ (∃ m : Nat, (m : Int) = ⌊(3691 : ℚ) / (8660254 / 10000000 : ℚ)⌋
        ∧ ((HexGrid.mk ⟨0, 0⟩ ⟨0, 0⟩ [] []).generate_machine 0 0 2 3691 false).minor_axis.length
            = 2 * m + 2) := by
  have hfloor : ⌊(3691 : ℚ) / (8660254 / 10000000 : ℚ)⌋ = 4261 := by
    rw [Int.floor_eq_iff]
    norm_num
  have hm : ((4262 : Nat) : Int) = hexCount 3691 false := by rw [hexCount_3691]; rfl
  have hlen :
      ((HexGrid.mk ⟨0, 0⟩ ⟨0, 0⟩ [] []).generate_machine 0 0 2 3691 false).minor_axis.length
        = 8526 := by
    rw [generate_machine_minor_axis _ 0 0 2 3691 false 4262 hm
      (by rw [hexCount_3691]; norm_num)]
    simp
  refine ⟨hfloor, hlen, ?_⟩
  rintro ⟨m, hm1, hm2⟩
  rw [hfloor] at hm1
  rw [hlen] at hm2
  omega

/-- C2 (amended): for every `n ≥ 1` for which the `int` expression `(m * 3) + 2` does not
overflow, `generate` (machine arithmetic) on a grid with empty axis vectors leaves
`minor_axis` with exactly `(3m+2) - m = 2m+2` elements, where `m` is `n|1` in centered mode,
`1` in corner mode with `n = 1`, and in corner mode with `n > 1` the truncation of the
binary32 quotient of `float(n)` by the binary32 constant `sin60 = 14529495 / 2^24`; exactly
`m` raw indices in `[0, 3m+2)` are skipped. -/
theorem generate_machine_minor_axis_length (g : HexGrid) (maj_orig min_orig grid_size : ℚ)
    (n : Int) (centered : Bool) (hg : g.minor_axis = []) (hn : 1 ≤ n)
    (hov : hexCount n centered * 3 + 2 < 2 ^ 31) :
    ∃ m : Nat,
      (m : Int) = (if centered then Int.lor n 1
        else if n = 1 then 1
        else truncToInt (f32 (f32 (n : ℚ) / (14529495 / 16777216 : ℚ))))
      ∧ ((List.range (3 * m + 2)).filter (fun i => decide ((i + 1) % 3 = 0))).length = m
      ∧ (g.generate_machine maj_orig min_orig grid_size n centered).minor_axis.length
          = (3 * m + 2) - m
      ∧ (g.generate_machine maj_orig min_orig grid_size n centered).minor_axis.length
          = 2 * m + 2 := by
  have hpos := hexCount_pos n hn centered
  have hm : ((hexCount n centered).toNat : Int) = hexCount n centered :=
    Int.toNat_of_nonneg (by omega)
  refine ⟨(hexCount n centered).toNat, ?_, ?_, ?_, ?_⟩
  · rw [hm]
    unfold hexCount
    rw [sin60_f32_eq]
  · have h := filter_phantom_range (hexCount n centered).toNat
    have hfun : (fun i => decide ((i + 1) % 3 = 0)) = isPhantom := by
      funext i; rw [isPhantom_iff]
    rw [hfun, h]
    simp
  · rw [generate_machine_minor_axis g maj_orig min_orig grid_size n centered _ hm hov, hg]
    simp only [List.nil_append, List.length_map, List.length_range]
    omega
  · rw [generate_machine_minor_axis g maj_orig min_orig grid_size n centered _ hm hov, hg]
    simp only [List.nil_append, List.length_map, List.length_range]

theorem generate_machine_minor_axis_length_witness :
    ((([] : List ℚ) = [] ∧ (1 : Int) ≤ 3691) ∧ hexCount 3691 false * 3 + 2 < 2 ^ 31) ∧
    ∃ m : Nat,
      (m : Int) = (if false then Int.lor 3691 1
        else if (3691 : Int) = 1 then 1
        else truncToInt (f32 (f32 ((3691 : Int) : ℚ) / (14529495 / 16777216 : ℚ))))
      ∧ ((List.range (3 * m + 2)).filter (fun i => decide ((i + 1) % 3 = 0))).length = m
      ∧ ((HexGrid.mk ⟨0, 0⟩ ⟨0, 0⟩ [] []).generate_machine 0 0 2 3691 false).minor_axis.length
          = (3 * m + 2) - m
      ∧ ((HexGrid.mk ⟨0, 0⟩ ⟨0, 0⟩ [] []).generate_machine 0 0 2 3691 false).minor_axis.length
          = 2 * m + 2 :=
  ⟨⟨⟨rfl, by decide⟩, by rw [hexCount_3691]; norm_num⟩,
    generate_machine_minor_axis_length (HexGrid.mk ⟨0, 0⟩ ⟨0, 0⟩ [] []) 0 0 2 3691 false rfl
      (by decide) (by rw [hexCount_3691]; norm_num)⟩

/-- C3 (counterexample): in corner mode with `n = 3691` the list that the claim describes
for `m = floor(3691 / 0.8660254) = 4261` has `8524` values, but the `minor_axis` that the
code produces has a value at position `8525`. -/
theorem corner_3691_minor_axis_not_floor_list :
    ⌊(3691 : ℚ) / (8660254 / 10000000 : ℚ)⌋ = 4261
    ∧ (((List.range (3 * 4261 + 2)).filter (fun i => decide ((i + 1) % 3 ≠ 0))).map
        (fun (i : Nat) =>
          (0 : ℚ) + 2 / (2 * ((3691 : Int) : ℚ)) / (8660254 / 10000000 : ℚ) / 2 * (i : ℚ))).length
        = 8524
    ∧ ((HexGrid.mk ⟨0, 0⟩ ⟨0, 0⟩ [] []).generate_machine 0 0 2 3691 false).minor_axis[8525]?
        ≠ none
    ∧ ((HexGrid.mk ⟨0, 0⟩ ⟨0, 0⟩ [] []).generate 0 0 2 3691 false).minor_axis
        ≠ ((List.range (3 * 4261 + 2)).filter (fun i => decide ((i + 1) % 3 ≠ 0))).map
            (fun (i : Nat) =>
              (0 : ℚ) + 2 / (2 * ((3691 : Int) : ℚ)) / (8660254 / 10000000 : ℚ) / 2
                * (i : ℚ)) := by
  have hfloor : ⌊(3691 : ℚ) / (8660254 / 10000000 : ℚ)⌋ = 4261 := by
    rw [Int.floor_eq_iff]
    norm_num
  have hm : ((4262 : Nat) : Int) = hexCount 3691 false := by rw [hexCount_3691]; rfl
  have hfun : (fun i => decide ((i + 1) % 3 ≠ 0)) = (fun i => !isPhantom i) := by
    funext i; rw [isPhantom_iff]; simp
  have hlist : (((List.range (3 * 4261 + 2)).filter (fun i => decide ((i + 1) % 3 ≠ 0))).map
        (fun (i : Nat) =>
          (0 : ℚ) + 2 / (2 * ((3691 : Int) : ℚ)) / (8660254 / 10000000 : ℚ) / 2 * (i : ℚ))).length
        = 8524 := by
    rw [hfun, filter_not_phantom_range]
    simp
  refine ⟨hfloor, hlist, ?_, ?_⟩
  · rw [generate_machine_minor_axis _ 0 0 2 3691 false 4262 hm
      (by rw [hexCount_3691]; norm_num)]
    have hk : 8525 < 2 * 4262 + 2 := by norm_num
    simp only [List.nil_append, List.getElem?_map, List.getElem?_range hk, Option.map_some']
    simp
  · intro h
    have hlen := congrArg List.length h
    rw [hlist, generate_minor_axis _ 0 0 2 3691 false (by decide) 4262 hm] at hlen
    simp at hlen

/-- C3 (amended): for every `n ≥ 1` for which the `int` expressions `(n * 2) + 1` and
`(m * 3) + 2` do not overflow, the `minor_axis` produced by `generate` is exactly the list,
in increasing `i`, of the values computed from `min_orig'`, `min_off = r/2` and `i` for those
`i` in `[0, 3m+2)` with `(i+1) mod 3 ≠ 0`; its `k`-th element uses the raw index
`3*floor(k/2) + (k mod 2)`. Here `m` is the hexagon count that the code computes (`n|1`, `1`,
or the truncated binary32 quotient of `float(n)` by `sin60`). With machine arithmetic the
value is `fl(min_orig' + fl(min_off * fl(i)))`, `r = fl(fl(grid_size/fl(2n)) / sin60)`,
`min_off = fl(r/2)` and `min_orig'` is `min_orig` in corner mode and
`fl(min_orig - fl(fl(r * fl(2 + 3*floor(n/2))) / 2))` in centered mode, `fl` rounding to
binary32. In exact arithmetic the value is `min_orig' + (r/2) * i` with
`r = grid_size/(2n)/0.8660254` and the centered `min_orig' =
min_orig - r*(2 + 3*floor(n/2))/2`. -/
theorem generate_machine_minor_axis_spec (g : HexGrid) (maj_orig min_orig grid_size : ℚ)
    (n : Int) (centered : Bool) (hg : g.minor_axis = []) (hn : 1 ≤ n)
    (hov1 : n * 2 + 1 < 2 ^ 31) (hov2 : hexCount n centered * 3 + 2 < 2 ^ 31) :
    ∃ (m : Nat) (r min_off min_orig' : ℚ),
      (m : Int) = (if centered then Int.lor n 1
        else if n = 1 then 1
        else truncToInt (f32 (f32 (n : ℚ) / (14529495 / 16777216 : ℚ))))
      ∧ r = f32 (f32 (grid_size / f32 (2 * (n : ℚ))) / (14529495 / 16777216 : ℚ))
      ∧ min_off = f32 (r / 2)
      ∧ min_orig' = (if centered then
            f32 (min_orig - f32 (f32 (r * f32 ((2 + 3 * (n / 2) : Int) : ℚ)) / 2))
          else min_orig)
      ∧ (g.generate_machine maj_orig min_orig grid_size n centered).minor_axis
          = ((List.range (3 * m + 2)).filter (fun i => decide ((i + 1) % 3 ≠ 0))).map
              (fun (i : Nat) => f32 (min_orig' + f32 (min_off * f32 (i : ℚ))))
      ∧ (∀ k : Nat, k < 2 * m + 2 →
          (g.generate_machine maj_orig min_orig grid_size n centered).minor_axis[k]?
            = some (f32 (min_orig' + f32 (min_off * f32 ((3 * (k / 2) + k % 2 : Nat) : ℚ)))))
      ∧ (g.generate maj_orig min_orig grid_size n centered).minor_axis
          = ((List.range (3 * m + 2)).filter (fun i => decide ((i + 1) % 3 ≠ 0))).map
              (fun (i : Nat) =>
                (if centered then
                    min_orig - (grid_size / (2 * (n : ℚ)) / (8660254 / 10000000 : ℚ)
                      * ((2 + 3 * (n / 2) : Int) : ℚ)) / 2
                  else min_orig)
                + grid_size / (2 * (n : ℚ)) / (8660254 / 10000000 : ℚ) / 2 * (i : ℚ)) := by
  have hpos := hexCount_pos n hn centered
  have hm : ((hexCount n centered).toNat : Int) = hexCount n centered :=
    Int.toNat_of_nonneg (by omega)
  have hfun : (fun i => decide ((i + 1) % 3 ≠ 0)) = (fun i => !isPhantom i) := by
    funext i; rw [isPhantom_iff]; simp
  have htd : Int.tdiv n 2 = n / 2 := Int.tdiv_eq_ediv (by omega) (by decide)
  have h2n : int32 (n * 2) = n * 2 := int32_eq_self _ (by omega) (by omega)
  have h3 : int32 (3 * (n / 2)) = 3 * (n / 2) := int32_eq_self _ (by omega) (by omega)
  have h23 : int32 (2 + 3 * (n / 2)) = 2 + 3 * (n / 2) :=
    int32_eq_self _ (by omega) (by omega)
  have hcast : ((n * 2 : Int) : ℚ) = 2 * (n : ℚ) := by push_cast; ring
  have hmach := generate_machine_minor_axis g maj_orig min_orig grid_size n centered _ hm hov2
  rw [hg, htd, h3, h23, h2n, hcast, sin60_f32_eq] at hmach
  refine ⟨(hexCount n centered).toNat, _, _, _, ?_, rfl, rfl, rfl, ?_, ?_, ?_⟩
  · rw [hm]
    unfold hexCount
    rw [sin60_f32_eq]
  · rw [hmach, hfun, filter_not_phantom_range, List.map_map]
    rfl
  · intro k hk
    rw [hmach]
    simp only [List.nil_append, List.getElem?_map, List.getElem?_range hk, Option.map_some']
    rfl
  · rw [generate_minor_axis g maj_orig min_orig grid_size n centered hn _ hm, hg, hfun,
      filter_not_phantom_range, List.map_map]
    rfl

theorem generate_machine_minor_axis_spec_witness :
    ((([] : List ℚ) = [] ∧ (1 : Int) ≤ 9)
      ∧ ((9 : Int) * 2 + 1 < 2 ^ 31 ∧ hexCount 9 false * 3 + 2 < 2 ^ 31)) ∧
    (∃ (m : Nat) (r min_off min_orig' : ℚ),
        (m : Int) = (if false then Int.lor 9 1
          else if (9 : Int) = 1 then 1
          else truncToInt (f32 (f32 ((9 : Int) : ℚ) / (14529495 / 16777216 : ℚ))))
        ∧ r = f32 (f32 ((2 : ℚ) / f32 (2 * ((9 : Int) : ℚ))) / (14529495 / 16777216 : ℚ))
        ∧ min_off = f32 (r / 2)
        ∧ min_orig' = (if false then
              f32 ((0 : ℚ) - f32 (f32 (r * f32 ((2 + 3 * ((9 : Int) / 2) : Int) : ℚ)) / 2))
            else (0 : ℚ))
        ∧ ((HexGrid.mk ⟨0, 0⟩ ⟨0, 0⟩ [] []).generate_machine 0 0 2 9 false).minor_axis
            = ((List.range (3 * m + 2)).filter (fun i => decide ((i + 1) % 3 ≠ 0))).map
                (fun (i : Nat) => f32 (min_orig' + f32 (min_off * f32 (i : ℚ))))
        ∧ (∀ k : Nat, k < 2 * m + 2 →
            ((HexGrid.mk ⟨0, 0⟩ ⟨0, 0⟩ [] []).generate_machine 0 0 2 9 false).minor_axis[k]?
              = some (f32 (min_orig' + f32 (min_off * f32 ((3 * (k / 2) + k % 2 : Nat) : ℚ)))))
        ∧ ((HexGrid.mk ⟨0, 0⟩ ⟨0, 0⟩ [] []).generate 0 0 2 9 false).minor_axis
            = ((List.range (3 * m + 2)).filter (fun i => decide ((i + 1) % 3 ≠ 0))).map
                (fun (i : Nat) =>
                  (if false then
                      (0 : ℚ) - ((2 : ℚ) / (2 * ((9 : Int) : ℚ)) / (8660254 / 10000000 : ℚ)
                        * ((2 + 3 * ((9 : Int) / 2) : Int) : ℚ)) / 2
                    else (0 : ℚ))
                  + (2 : ℚ) / (2 * ((9 : Int) : ℚ)) / (8660254 / 10000000 : ℚ) / 2 * (i : ℚ))) :=
  ⟨⟨⟨rfl, by decide⟩, by norm_num, by rw [hexCount_9]; norm_num⟩,
    generate_machine_minor_axis_spec (HexGrid.mk ⟨0, 0⟩ ⟨0, 0⟩ [] []) 0 0 2 9 false rfl
      (by decide) (by norm_num) (by rw [hexCount_9]; norm_num)⟩

/-- With an empty minor axis and a non-empty major axis the walk reads `minor_axis[1]`
outside the vector on its first pass: `minor_size - 1` has wrapped to `2^64 - 1`. -/
theorem zigzagWalk_empty_minor (major_axis : List ℚ) (h : major_axis ≠ []) :
    zigzagWalk major_axis [] [] = none := by
  obtain ⟨l, hl⟩ : ∃ l, major_axis.length = l + 1 := by
    cases major_axis with
    | nil => exact absurd rfl h
    | cons a t => exact ⟨t.length, rfl⟩
  have hb : size_t_pred ([] : List ℚ).length = 2 ^ 64 - 1 := by
    norm_num [size_t_pred]
  have hinner : ∀ st : WalkState, st.zig = false → innerLoop major_axis [] 0 st = none := by
    intro st hz
    unfold innerLoop
    rw [hl, List.range_succ_eq_map, List.foldlM_cons]
    have hstep : walkStep major_axis [] 0 st 0 = none := by
      unfold walkStep
      rw [hz]
      simp
    rw [hstep]
    rfl
  unfold zigzagWalk
  simp only [hb]
  rw [outerLoop, if_pos (by norm_num), hinner _ rfl]
  rfl


theorem generate_machine_major_length (g : HexGrid) (maj_orig min_orig grid_size : ℚ)
    (n : Int) (centered : Bool) (hg : g.major_axis = []) :
    (g.generate_machine maj_orig min_orig grid_size n centered).major_axis.length
      = (int32 (int32 (n * 2) + 1)).toNat := by
  rw [generate_machine_major_axis, hg]
  simp only [List.nil_append, List.length_map, List.length_range]

/-- C13 (counterexample): in centered mode with `n = 715827882` the hexagon count is
`715827883` and the `int` expression `(m * 3) + 2` wraps to a negative value, so the minor
loop does not run: `minor_axis` stays empty while `major_axis` has `1431655765` elements,
`minor_size - 1` wraps to `2^64 - 1` and the walk reads outside `minor_axis`. -/
theorem overflow_walk_out_of_bounds :
    ((HexGrid.mk ⟨0, 0⟩ ⟨0, 0⟩ [] []).generate_machine 0 0 2 715827882 true).minor_axis = []
    ∧ ((HexGrid.mk ⟨0, 0⟩ ⟨0, 0⟩ [] []).generate_machine 0 0 2 715827882 true).major_axis.length
        = 1431655765
    ∧ size_t_pred
        ((HexGrid.mk ⟨0, 0⟩ ⟨0, 0⟩ [] []).generate_machine 0 0 2 715827882 true).minor_axis.length
        = 2 ^ 64 - 1
    ∧ zigzagWalk
        ((HexGrid.mk ⟨0, 0⟩ ⟨0, 0⟩ [] []).generate_machine 0 0 2 715827882 true).major_axis
        ((HexGrid.mk ⟨0, 0⟩ ⟨0, 0⟩ [] []).generate_machine 0 0 2 715827882 true).minor_axis []
        = none := by
  have hcount : hexCount 715827882 true = 715827883 := by
    unfold hexCount
    rw [if_pos rfl, int_lor_one _ (by norm_num)]
    norm_num
  have hminor_bound : (int32 (int32 (hexCount 715827882 true * 3) + 2)).toNat = 0 := by
    rw [hcount]
    norm_num [int32]
  have hmajor_bound : (int32 (int32 ((715827882 : Int) * 2) + 1)).toNat = 1431655765 := by
    have h : int32 (int32 ((715827882 : Int) * 2) + 1) = ((1431655765 : Nat) : Int) := by
      norm_num [int32]
    rw [h, Int.toNat_natCast]
  have hminor :
      ((HexGrid.mk ⟨0, 0⟩ ⟨0, 0⟩ [] []).generate_machine 0 0 2 715827882 true).minor_axis
        = [] := by
    simp only [HexGrid.generate_machine, minorLoop_machine_eq, hminor_bound, List.range_zero,
      List.filter_nil, List.map_nil, List.append_nil]
  have hmajor :
      ((HexGrid.mk ⟨0, 0⟩ ⟨0, 0⟩ [] []).generate_machine 0 0 2 715827882 true).major_axis.length
        = 1431655765 :=
    (generate_machine_major_length (HexGrid.mk ⟨0, 0⟩ ⟨0, 0⟩ [] []) 0 0 2 715827882 true
      rfl).trans hmajor_bound
  have hne :
      ((HexGrid.mk ⟨0, 0⟩ ⟨0, 0⟩ [] []).generate_machine 0 0 2 715827882 true).major_axis
        ≠ [] := by
    intro h
    have h2 := hmajor.symm.trans (congrArg List.length h)
    norm_num at h2
  have hpred : size_t_pred ([] : List ℚ).length = 2 ^ 64 - 1 := by
    norm_num [size_t_pred]
  exact ⟨hminor, hmajor,
    (congrArg (fun (l : List ℚ) => size_t_pred l.length) hminor).trans hpred,
    (congrArg (fun (l : List ℚ) => zigzagWalk
      ((HexGrid.mk ⟨0, 0⟩ ⟨0, 0⟩ [] []).generate_machine 0 0 2 715827882 true).major_axis l [])
      hminor).trans (zigzagWalk_empty_minor _ hne)⟩

/-- C13 (amended): for the axes produced by `generate` (machine arithmetic) with any `n ≥ 1`
for which the `int` expression `(m * 3) + 2` does not overflow, in either mode, the zigzag
walk never indexes out of bounds: `minor_axis` has an even length of at least 4,
`minor_size - 1` does not wrap, the walk returns a vertex array (no read outside a vector),
every counter `j` of the outer loop has `j + 1 < minor_size`, every counter `i` of the inner
loop is below `major_size`, and every minor-axis index belongs to the pair `(j, j+1)` of
exactly one strip. -/
theorem generate_machine_walk_in_bounds (g : HexGrid) (maj_orig min_orig grid_size : ℚ)
    (n : Int) (centered : Bool) (hmin : g.minor_axis = []) (hn : 1 ≤ n)
    (hov : hexCount n centered * 3 + 2 < 2 ^ 31) :
    ((g.generate_machine maj_orig min_orig grid_size n centered).minor_axis.length % 2 = 0
      ∧ 4 ≤ (g.generate_machine maj_orig min_orig grid_size n centered).minor_axis.length)
    ∧ size_t_pred
          (g.generate_machine maj_orig min_orig grid_size n centered).minor_axis.length + 1
        = (g.generate_machine maj_orig min_orig grid_size n centered).minor_axis.length
    ∧ (∃ v_arr : List vec3d,
        zigzagWalk (g.generate_machine maj_orig min_orig grid_size n centered).major_axis
          (g.generate_machine maj_orig min_orig grid_size n centered).minor_axis []
          = some v_arr)
    ∧ (∀ j : Nat,
        j ∈ outerLoopIndices
          (size_t_pred
            (g.generate_machine maj_orig min_orig grid_size n centered).minor_axis.length) 0 →
        j + 1 < (g.generate_machine maj_orig min_orig grid_size n centered).minor_axis.length)
    ∧ (∀ i : Nat,
        i ∈ List.range
          (g.generate_machine maj_orig min_orig grid_size n centered).major_axis.length →
        i < (g.generate_machine maj_orig min_orig grid_size n centered).major_axis.length)
    ∧ (∀ k : Nat,
        k < (g.generate_machine maj_orig min_orig grid_size n centered).minor_axis.length →
        ∃! j : Nat,
          j ∈ outerLoopIndices
            (size_t_pred
              (g.generate_machine maj_orig min_orig grid_size n centered).minor_axis.length) 0
          ∧ (k = j ∨ k = j + 1)) := by
  have hpos := hexCount_pos n hn centered
  have hm : ((hexCount n centered).toNat : Int) = hexCount n centered :=
    Int.toNat_of_nonneg (by omega)
  have hlen : (g.generate_machine maj_orig min_orig grid_size n centered).minor_axis.length
      = 2 * (hexCount n centered).toNat + 2 := by
    rw [generate_machine_minor_axis g maj_orig min_orig grid_size n centered _ hm hov, hmin]
    simp only [List.nil_append, List.length_map, List.length_range]
  have hm1 : 1 ≤ (hexCount n centered).toNat := by omega
  have hm2 : (hexCount n centered).toNat < 2 ^ 31 := by omega
  generalize (g.generate_machine maj_orig min_orig grid_size n centered).minor_axis
    = minor_axis at hlen ⊢
  generalize (g.generate_machine maj_orig min_orig grid_size n centered).major_axis
    = major_axis
  have hL4 : 4 ≤ minor_axis.length := by omega
  have hL64 : minor_axis.length < 2 ^ 64 := by omega
  have hne : minor_axis ≠ [] := by
    intro h
    rw [h] at hL4
    simp at hL4
  have hpred : size_t_pred minor_axis.length = minor_axis.length - 1 :=
    size_t_pred_eq _ (by omega) hL64
  have hmem := mem_outerLoopIndices (minor_axis.length - 1) (minor_axis.length - 1) 0
    (by omega)
  refine ⟨⟨by omega, hL4⟩, by omega, ⟨_, zigzagWalk_eq major_axis minor_axis hne hL64⟩,
    ?_, ?_, ?_⟩
  · intro j hj
    rw [hpred, hmem] at hj
    omega
  · intro i hi
    exact List.mem_range.mp hi
  · intro k hk
    refine ⟨2 * (k / 2), ⟨?_, by omega⟩, ?_⟩
    · rw [hpred, hmem]
      omega
    · rintro j ⟨hj, hkj⟩
      rw [hpred, hmem] at hj
      omega

theorem generate_machine_walk_in_bounds_witness :
    ((([] : List ℚ) = [] ∧ (1 : Int) ≤ 9) ∧ hexCount 9 false * 3 + 2 < 2 ^ 31) ∧
    ((((HexGrid.mk ⟨0, 0⟩ ⟨0, 0⟩ [] []).generate_machine 0 0 2 9 false).minor_axis.length % 2 = 0
        ∧ 4 ≤ ((HexGrid.mk ⟨0, 0⟩ ⟨0, 0⟩ [] []).generate_machine 0 0 2 9 false).minor_axis.length)
      ∧ size_t_pred
            ((HexGrid.mk ⟨0, 0⟩ ⟨0, 0⟩ [] []).generate_machine 0 0 2 9 false).minor_axis.length + 1
          = ((HexGrid.mk ⟨0, 0⟩ ⟨0, 0⟩ [] []).generate_machine 0 0 2 9 false).minor_axis.length
      ∧ (∃ v_arr : List vec3d,
          zigzagWalk ((HexGrid.mk ⟨0, 0⟩ ⟨0, 0⟩ [] []).generate_machine 0 0 2 9 false).major_axis
            ((HexGrid.mk ⟨0, 0⟩ ⟨0, 0⟩ [] []).generate_machine 0 0 2 9 false).minor_axis []
            = some v_arr)
      ∧ (∀ j : Nat,
          j ∈ outerLoopIndices
            (size_t_pred
              ((HexGrid.mk ⟨0, 0⟩ ⟨0, 0⟩ [] []).generate_machine 0 0 2 9 false).minor_axis.length) 0 →
          j + 1 < ((HexGrid.mk ⟨0, 0⟩ ⟨0, 0⟩ [] []).generate_machine 0 0 2 9 false).minor_axis.length)
      ∧ (∀ i : Nat,
          i ∈ List.range
            ((HexGrid.mk ⟨0, 0⟩ ⟨0, 0⟩ [] []).generate_machine 0 0 2 9 false).major_axis.length →
          i < ((HexGrid.mk ⟨0, 0⟩ ⟨0, 0⟩ [] []).generate_machine 0 0 2 9 false).major_axis.length)
      ∧ (∀ k : Nat,
          k < ((HexGrid.mk ⟨0, 0⟩ ⟨0, 0⟩ [] []).generate_machine 0 0 2 9 false).minor_axis.length →
          ∃! j : Nat,
            j ∈ outerLoopIndices
              (size_t_pred
                ((HexGrid.mk ⟨0, 0⟩ ⟨0, 0⟩ [] []).generate_machine 0 0 2 9 false).minor_axis.length) 0
            ∧ (k = j ∨ k = j + 1))) :=
  ⟨⟨⟨rfl, by decide⟩, by rw [hexCount_9]; norm_num⟩,
    generate_machine_walk_in_bounds (HexGrid.mk ⟨0, 0⟩ ⟨0, 0⟩ [] []) 0 0 2 9 false rfl
      (by decide) (by rw [hexCount_9]; norm_num)⟩

